import Mathlib

/-!
Verification development for the claude-orchestra core:
shallow embedding of `lib/context_guard.py`, `lib/budget.py`,
`lib/resilience.py` and `lib/codex_wrapper.py`, plus theorems about the
spec-level claims on those components.

Strings are modelled as `List Char`; Python `re` regular expressions are
modelled by a small backtracking matcher (`Rx`, `mre`) with Python
semantics: leftmost match, first-alternative priority, greedy
quantifiers with backtracking, lazy `*?`, MULTILINE `^`/`$` anchors.
Character classes are modelled over their ASCII meaning (the contents
scanned by the claims are ASCII).
-/

namespace Orchestra

/-- Continuation-passing match result: reversed consumed characters,
previous character (for `^` anchors), remaining input. -/
abbrev MRes := List Char × Option Char × List Char

/-- Continuation type for the matcher. -/
abbrev MK := List Char → Option Char → List Char → Option MRes

/-- Regular-expression syntax: quantifiers apply to character classes
(as in all patterns of `context_guard.py`), plus a general group star
`starG` (needed for the blocked-filename pattern). -/
inductive Rx where
  | eps
  | cls (p : Char → Bool)
  | cat (a b : Rx)
  | alt (a b : Rx)
  | optC (p : Char → Bool)
  | many (p : Char → Bool)
  | exactN (p : Char → Bool) (n : Nat)
  | manyLazy (p : Char → Bool)
  | starG (r : Rx)
  | bol
  | eol

/-- Greedy `p*` over a character class: prefer consuming more, backtrack
character by character. -/
def manyGo (p : Char → Bool) (k : MK) : List Char → Option Char → List Char → Option MRes
  | racc, prev, [] => k racc prev []
  | racc, prev, c :: rs =>
    if p c then (manyGo p k (c :: racc) (some c) rs) <|> k racc prev (c :: rs)
    else k racc prev (c :: rs)

/-- Lazy `p*?` over a character class: prefer consuming less. -/
def lazyGo (p : Char → Bool) (k : MK) : List Char → Option Char → List Char → Option MRes
  | racc, prev, [] => k racc prev []
  | racc, prev, c :: rs =>
    (k racc prev (c :: rs)) <|> (if p c then lazyGo p k (c :: racc) (some c) rs else none)

/-- Exactly `n` characters of class `p`. -/
def exactGo (p : Char → Bool) (k : MK) : Nat → List Char → Option Char → List Char → Option MRes
  | 0, racc, prev, rest => k racc prev rest
  | _ + 1, _, _, [] => none
  | n + 1, racc, prev, c :: rs =>
    if p c then exactGo p k n (c :: racc) (some c) rs else none

/-- Greedy group star: `m` is the matcher of the group body. Repetition
stops when the body matches without consuming (mirrors Python avoiding
empty-match loops). Fuel bounds the number of repetitions. -/
def starGLoop (m : List Char → Option Char → List Char → MK → Option MRes) (k : MK) :
    Nat → List Char → Option Char → List Char → Option MRes
  | 0, racc, prev, rest => k racc prev rest
  | f + 1, racc, prev, rest =>
    (m [] prev rest (fun racc2 p2 rs2 =>
      if racc2.isEmpty then none else starGLoop m k f (racc2 ++ racc) p2 rs2))
    <|> k racc prev rest

/-- The backtracking matcher, anchored at the current position.
Arguments: regex, reversed consumed characters so far, previous
character, remaining input, continuation. Priority order matches
Python `re`: first alternative wins, greedy quantifiers try the longest
repetition first. `bol`/`eol` are the MULTILINE `^`/`$`. -/
def mre : Rx → List Char → Option Char → List Char → MK → Option MRes
  | .eps, racc, prev, rest, k => k racc prev rest
  | .cls p, racc, _, rest, k =>
    match rest with
    | [] => none
    | c :: rs => if p c then k (c :: racc) (some c) rs else none
  | .cat a b, racc, prev, rest, k =>
    mre a racc prev rest (fun r2 p2 rs2 => mre b r2 p2 rs2 k)
  | .alt a b, racc, prev, rest, k =>
    (mre a racc prev rest k) <|> mre b racc prev rest k
  | .optC p, racc, prev, rest, k =>
    match rest with
    | [] => k racc prev []
    | c :: rs =>
      if p c then (k (c :: racc) (some c) rs) <|> k racc prev (c :: rs)
      else k racc prev (c :: rs)
  | .many p, racc, prev, rest, k => manyGo p k racc prev rest
  | .exactN p n, racc, prev, rest, k => exactGo p k n racc prev rest
  | .manyLazy p, racc, prev, rest, k => lazyGo p k racc prev rest
  | .starG r, racc, prev, rest, k => starGLoop (mre r) k (rest.length + 1) racc prev rest
  | .bol, racc, prev, rest, k =>
    match prev with
    | none => k racc prev rest
    | some c => if c = '\n' then k racc prev rest else none
  | .eol, racc, prev, rest, k =>
    match rest with
    | [] => k racc prev rest
    | c :: _ => if c = '\n' then k racc prev rest else none

/-- Try to match `re` at the current position; on success return the
reversed matched text, the new previous character and the rest. -/
def attempt (re : Rx) (prev : Option Char) (rest : List Char) : Option MRes :=
  mre re [] prev rest (fun racc p2 rs2 => some (racc, p2, rs2))

/-- `p{n,}`: at least `n` repetitions, greedy. -/
def atLeast (p : Char → Bool) (n : Nat) : Rx := .cat (.exactN p n) (.many p)

/-- Case-sensitive literal. -/
def lit (s : String) : Rx :=
  s.toList.foldr (fun c r => Rx.cat (.cls (fun x => x = c)) r) .eps

/-- Case-insensitive literal (IGNORECASE; `s` must be lowercase). -/
def litCI (s : String) : Rx :=
  s.toList.foldr (fun c r => Rx.cat (.cls (fun x => x.toLower = c)) r) .eps

/-- Python `\w` (ASCII): alphanumeric or underscore. -/
def pyWord (c : Char) : Bool := c.isAlphanum || c = '_'

/-- Python `\s` (ASCII): space, tab, newline, carriage return, vertical
tab, form feed. -/
def pySpace (c : Char) : Bool :=
  c = ' ' || c = '\t' || c = '\n' || c = '\r' || c = Char.ofNat 11 || c = Char.ofNat 12

/-- The apostrophe character. -/
def quoteS : Char := Char.ofNat 39

/-- The class `["\']`. -/
def quoteCls (c : Char) : Bool := c = '"' || c = quoteS

/-- A compiled secret pattern together with its source text
(the Python `pattern.pattern` string, used for finding ids). -/
structure SecretPat where
  re : Rx
  src : String

/-- `\s*` -/
def wsStar : Rx := .many pySpace

/-- `[:=]` -/
def colonEq : Rx := .cls (fun c => c = ':' || c = '=')

/-- `(?:api[_-]?key|apikey)\s*[:=]\s*["\']?[\w\-]{20,}` (IGNORECASE) -/
def pat1 : SecretPat :=
  ⟨.cat (.alt (.cat (litCI "api") (.cat (.optC (fun c => c = '_' || c = '-')) (litCI "key")))
              (litCI "apikey"))
     (.cat wsStar (.cat colonEq (.cat wsStar (.cat (.optC quoteCls)
       (atLeast (fun c => pyWord c || c = '-') 20))))),
   "(?:api[_-]?key|apikey)\\s*[:=]\\s*[\"\\\x27]?[\\w\\-]\x7b20,\x7d"⟩

/-- `AKIA[0-9A-Z]{16}` -/
def pat2 : SecretPat :=
  ⟨.cat (lit "AKIA") (.exactN (fun c => c.isDigit || (c.isUpper && c.isAlpha)) 16),
   "AKIA[0-9A-Z]\x7b16\x7d"⟩

/-- `(?:aws[_-]?secret|secret[_-]?access[_-]?key)\s*[:=]\s*["\']?[\w/+=]{30,}` (IGNORECASE) -/
def pat3 : SecretPat :=
  ⟨.cat (.alt (.cat (litCI "aws") (.cat (.optC (fun c => c = '_' || c = '-')) (litCI "secret")))
              (.cat (litCI "secret") (.cat (.optC (fun c => c = '_' || c = '-'))
                (.cat (litCI "access") (.cat (.optC (fun c => c = '_' || c = '-')) (litCI "key"))))))
     (.cat wsStar (.cat colonEq (.cat wsStar (.cat (.optC quoteCls)
       (atLeast (fun c => pyWord c || c = '/' || c = '+' || c = '=') 30))))),
   "(?:aws[_-]?secret|secret[_-]?access[_-]?key)\\s*[:=]\\s*[\"\\\x27]?[\\w/+=]\x7b30,\x7d"⟩

/-- `gh[pousr]_[A-Za-z0-9_]{36,}` -/
def pat4 : SecretPat :=
  ⟨.cat (lit "gh") (.cat (.cls (fun c => c = 'p' || c = 'o' || c = 'u' || c = 's' || c = 'r'))
     (.cat (lit "_") (atLeast pyWord 36))),
   "gh[pousr]_[A-Za-z0-9_]\x7b36,\x7d"⟩

/-- `glpat-[\w\-]{20,}` -/
def pat5 : SecretPat :=
  ⟨.cat (lit "glpat-") (atLeast (fun c => pyWord c || c = '-') 20),
   "glpat-[\\w\\-]\x7b20,\x7d"⟩

/-- `-----BEGIN [^-]*PRIVATE KEY-----.*?-----END [^-]*PRIVATE KEY-----` (DOTALL) -/
def pat6 : SecretPat :=
  ⟨.cat (lit "-----BEGIN ") (.cat (.many (fun c => !(c = '-'))) (.cat (lit "PRIVATE KEY-----")
     (.cat (.manyLazy (fun _ => true)) (.cat (lit "-----END ")
       (.cat (.many (fun c => !(c = '-'))) (lit "PRIVATE KEY-----")))))),
   "-----BEGIN [^-]*PRIVATE KEY-----.*?-----END [^-]*PRIVATE KEY-----"⟩

/-- `(?:secret|token|password|passwd|pwd)\s*[:=]\s*["\']?[^\s"\']{8,}` (IGNORECASE) -/
def pat7 : SecretPat :=
  ⟨.cat (.alt (litCI "secret") (.alt (litCI "token") (.alt (litCI "password")
              (.alt (litCI "passwd") (litCI "pwd")))))
     (.cat wsStar (.cat colonEq (.cat wsStar (.cat (.optC quoteCls)
       (atLeast (fun c => !(pySpace c || quoteCls c)) 8))))),
   "(?:secret|token|password|passwd|pwd)\\s*[:=]\\s*[\"\\\x27]?[^\\s\"\\\x27]\x7b8,\x7d"⟩

/-- base64url character class `[A-Za-z0-9_-]` -/
def b64url (c : Char) : Bool := c.isAlphanum || c = '_' || c = '-'

/-- `eyJ[A-Za-z0-9_-]{10,}\.eyJ[A-Za-z0-9_-]{10,}\.[A-Za-z0-9_-]+` -/
def pat8 : SecretPat :=
  ⟨.cat (lit "eyJ") (.cat (atLeast b64url 10) (.cat (lit ".") (.cat (lit "eyJ")
     (.cat (atLeast b64url 10) (.cat (lit ".") (atLeast b64url 1)))))),
   "eyJ[A-Za-z0-9_-]\x7b10,\x7d\\.eyJ[A-Za-z0-9_-]\x7b10,\x7d\\.[A-Za-z0-9_-]+"⟩

/-- `(?:mongodb|postgres|mysql|redis)://\S+:\S+@` (IGNORECASE) -/
def pat9 : SecretPat :=
  ⟨.cat (.alt (litCI "mongodb") (.alt (litCI "postgres") (.alt (litCI "mysql") (litCI "redis"))))
     (.cat (lit "://") (.cat (atLeast (fun c => !(pySpace c)) 1)
       (.cat (lit ":") (.cat (atLeast (fun c => !(pySpace c)) 1) (lit "@"))))),
   "(?:mongodb|postgres|mysql|redis)://\\S+:\\S+@"⟩

/-- `^[A-Z_]{3,}=\S{8,}$` (MULTILINE) -/
def pat10 : SecretPat :=
  ⟨.cat .bol (.cat (atLeast (fun c => (c.isUpper && c.isAlpha) || c = '_') 3)
     (.cat (lit "=") (.cat (atLeast (fun c => !(pySpace c)) 8) .eol))),
   "^[A-Z_]\x7b3,\x7d=\\S\x7b8,\x7d$"⟩

/-- The `_SECRET_PATTERNS` battery, in source order. -/
def SECRET_PATTERNS : List SecretPat :=
  [pat1, pat2, pat3, pat4, pat5, pat6, pat7, pat8, pat9, pat10]

/-- A secret finding: pattern id (first 40 chars of the regex source),
truncated sample (first 8 chars of the match plus `***`), line number. -/
structure Finding where
  pattern : String
  mtch : String
  line : Nat
deriving DecidableEq, Repr

/-- Number of newline characters in a list. -/
def countNl (l : List Char) : Nat := l.countP (fun c => c = '\n')

/-- The finding built from a match: pattern id, first 8 characters of
the match plus `***`, line number. -/
def mkFinding (pid : String) (racc : List Char) (line : Nat) : Finding :=
  ⟨pid, String.mk (racc.reverse.take 8) ++ "***", line⟩

/-- Line-number advance over one scanned character. -/
def nlAdv (line : Nat) (c : Char) : Nat := if c = '\n' then line + 1 else line

/-- One pattern's pass of `pattern.finditer`, producing findings in
position order. `line` is 1 plus the number of newlines before the
current position (matching `content[: match.start()].count("\n") + 1`).
Fuel decreases once per scanned position; `length + 1` always
suffices. -/
def scanGo (re : Rx) (pid : String) : Nat → Nat → Option Char → List Char → List Finding
  | 0, _, _, _ => []
  | f + 1, line, prev, [] =>
    match attempt re prev [] with
    | some (racc, p2, rs2) =>
      if racc.isEmpty then [mkFinding pid racc line]
      else mkFinding pid racc line :: scanGo re pid f (line + countNl racc.reverse) p2 rs2
    | none => []
  | f + 1, line, prev, c :: rs =>
    match attempt re prev (c :: rs) with
    | some (racc, p2, rs2) =>
      if racc.isEmpty then
        mkFinding pid racc line :: scanGo re pid f (nlAdv line c) (some c) rs
      else mkFinding pid racc line :: scanGo re pid f (line + countNl racc.reverse) p2 rs2
    | none => scanGo re pid f (nlAdv line c) (some c) rs

/-- The pattern loop of `scan_secrets`: run every pattern over the
content, findings in pattern order then position order. -/
def scanList : List SecretPat → List Char → List Finding
  | [], _ => []
  | p :: ps, content =>
    scanGo p.re (String.mk (p.src.toList.take 40)) (content.length + 1) 1 none content ++
      scanList ps content

def scan_secrets (content : List Char) : List Finding := scanList SECRET_PATTERNS content

/-- The `[REDACTED]` placeholder. -/
def REDACTED : List Char := "[REDACTED]".toList

/-- One pattern's pass of `pattern.sub("[REDACTED]", content)`: replace
every (leftmost, non-overlapping) match. Fuel decreases once per
position; `length + 1` always suffices. -/
def subGo (re : Rx) : Nat → Option Char → List Char → List Char
  | 0, _, rest => rest
  | f + 1, prev, [] =>
    match attempt re prev [] with
    | some (racc, p2, rs2) =>
      if racc.isEmpty then REDACTED else REDACTED ++ subGo re f p2 rs2
    | none => []
  | f + 1, prev, c :: rs =>
    match attempt re prev (c :: rs) with
    | some (racc, p2, rs2) =>
      if racc.isEmpty then REDACTED ++ (c :: subGo re f (some c) rs)
      else REDACTED ++ subGo re f p2 rs2
    | none => c :: subGo re f (some c) rs

/-- The pattern loop of `redact_secrets`: apply every pattern's
substitution in order (`redacted = pattern.sub("[REDACTED]", redacted)`
for each pattern). -/
def redactList : List SecretPat → List Char → List Char
  | [], redacted => redacted
  | p :: ps, redacted => redactList ps (subGo p.re (redacted.length + 1) none redacted)

/-- `redact_secrets`: apply every pattern's substitution in order. -/
def redact_secrets (content : List Char) : List Char := redactList SECRET_PATTERNS content

/-- `re.search`: try the pattern at every position, left to right. -/
def searchGo (re : Rx) : Option Char → List Char → Bool
  | prev, rest =>
    match attempt re prev rest with
    | some _ => true
    | none =>
      match rest with
      | [] => false
      | c :: rs => searchGo re (some c) rs

/-- `_BLOCKED_EXTENSIONS` -/
def BLOCKED_EXTENSIONS : List String :=
  [".env", ".pem", ".key", ".p12", ".pfx", ".jks", ".keystore", ".credentials", ".secret"]

/-- `\.env(\.\w+)*$` -/
def blk1 : Rx := .cat (lit ".env") (.cat (.starG (.cat (.cls (fun c => c = '.')) (atLeast pyWord 1))) .eol)

/-- `credentials\.json$` (IGNORECASE) -/
def blk2 : Rx := .cat (litCI "credentials.json") .eol

/-- `serviceaccount.*\.json$` (IGNORECASE) -/
def blk3 : Rx := .cat (litCI "serviceaccount") (.cat (.many (fun c => !(c = '\n'))) (.cat (litCI ".json") .eol))

/-- `.*_rsa$` -/
def blk4 : Rx := .cat (.many (fun c => !(c = '\n'))) (.cat (lit "_rsa") .eol)

/-- `id_ed25519$` -/
def blk5 : Rx := .cat (lit "id_ed25519") .eol

/-- `_BLOCKED_PATTERNS` -/
def BLOCKED_PATTERNS : List Rx := [blk1, blk2, blk3, blk4, blk5]

/-- Characters of the final path component (after the last `/`). -/
def lastCompAux : List Char → List Char → List Char
  | [], acc => acc.reverse
  | c :: rs, acc => if c = '/' then lastCompAux rs [] else lastCompAux rs (c :: acc)

/-- `Path(file_path).name` (POSIX component separator). -/
def pathName (f : String) : String := String.mk (lastCompAux f.toList [])

/-- Suffix helper: characters from the last dot on (empty when the only
dot is the leading one). -/
def sfxAux : List Char → List Char → List Char
  | [], cur => cur.reverse
  | c :: rs, cur =>
    if c = '.' then sfxAux rs ['.']
    else sfxAux rs (if cur.isEmpty then [] else c :: cur)

/-- `Path(file_path).suffix`: extension of the final component,
including the dot; a leading dot alone (hidden file) yields no
suffix. -/
def pathSuffix (name : String) : String :=
  match name.toList with
  | [] => ""
  | _ :: rest => String.mk (sfxAux rest [])

/-- `check_file_allowed`: blocked extensions and blocked name
patterns. -/
def check_file_allowed (file_path : String) : Bool :=
  let name := pathName file_path
  let sfx := String.mk ((pathSuffix name).toList.map Char.toLower)
  if BLOCKED_EXTENSIONS.contains sfx then false
  else if BLOCKED_PATTERNS.any (fun r => searchGo r none name.toList) then false
  else true

/-! ## guard_context

`enforce_allowed_dirs` resolves paths against the real filesystem
(symlinks, `..`, `CLAUDE_PROJECT_DIR`); it is modelled as an abstract
environment function returning the violation list, and the rendering of
the allowed-directory list in the error message as an abstract string. -/

/-- Environment for `guard_context`: consent policy / strict-origin
environment variables (raw values, as returned by `os.environ.get` with
its default), and the filesystem-dependent directory enforcement. -/
structure GuardEnv where
  rawPolicy : String
  strictOriginRaw : String
  enforceDirs : List String → List String
  allowedDirsDesc : String

/-- `_VALID_POLICIES` -/
def VALID_POLICIES : List String := ["block", "redact", "require_allowlist"]

/-- An audit-log entry `(event, details)`; details capped at 500
characters as in `_audit_log`. -/
def auditEntry (event details : String) : String × String :=
  (event, String.mk (details.toList.take 500))

/-- `_get_consent_policy`: validate the raw policy, defaulting to
`redact` with an audit record on an unknown value. -/
def get_consent_policy (env : GuardEnv) : String × List (String × String) :=
  if VALID_POLICIES.contains env.rawPolicy then (env.rawPolicy, [])
  else ("redact",
    [auditEntry "invalid_policy"
      ("Unknown ORCHESTRA_CONSENT_POLICY=\x27" ++ env.rawPolicy ++ "\x27, defaulting to \x27redact\x27")])

/-- `MAX_CONTEXT_SIZE` -/
def MAX_CONTEXT_SIZE : Nat := 100000

/-- The truncation marker appended by step 1 of `guard_context`. -/
def TRUNC_MARKER : List Char := "\n\n[TRUNCATED: content exceeded size limit]".toList

/-- Step 1 of `guard_context`: hard size cap with visible marker. -/
def truncate_content (cl : List Char) : List Char :=
  if MAX_CONTEXT_SIZE < cl.length then cl.take MAX_CONTEXT_SIZE ++ TRUNC_MARKER else cl

/-- Python `f"{list}"` rendering of a list of strings. -/
def pyListRepr (l : List String) : String :=
  "[" ++ String.intercalate ", " (l.map (fun s => "\x27" ++ s ++ "\x27")) ++ "]"

/-- Steps 5 and 6 of `guard_context`: secret scan and consent-policy
application on the (already truncated) content. -/
def guard_scan_stage (policy : String) (cl : List Char) (audits : List (String × String)) :
    Except String String × List (String × String) :=
  let findings := scan_secrets cl
  if findings.isEmpty then (Except.ok (String.mk cl), audits)
  else
    let audits2 := audits ++
      [auditEntry "secrets_found" (toString findings.length ++ " secrets detected, policy=" ++ policy)]
    if policy = "block" then
      (Except.error (toString findings.length ++
        " potential secrets detected. Policy is \x27block\x27: transmission blocked. Review content manually."),
       audits2)
    else (Except.ok (String.mk (redact_secrets cl)), audits2)

/-- `guard_context(content, source_files)`: returns `Except.error msg`
where the Python raises `ContextGuardError(msg)`, and `Except.ok content`
where it returns; the second component is the audit trail written via
`_audit_log`. -/
def guard_context (env : GuardEnv) (content : String) (source_files : Option (List String)) :
    Except String String × List (String × String) :=
  let cl := truncate_content content.toList
  let pa := get_consent_policy env
  let policy := pa.1
  let audits0 := pa.2
  let unknownOrigin : Bool := match source_files with
    | none => true
    | some l => l.isEmpty
  if unknownOrigin then
    if policy = "require_allowlist" then
      (Except.error ("source_files is required when ORCHESTRA_CONSENT_POLICY=require_allowlist. " ++
        "Provide explicit file paths for content being sent to external agents."),
       audits0 ++ [auditEntry "blocked_unknown_origin" "source_files not provided, policy=require_allowlist"])
    else if env.strictOriginRaw = "1" then
      (Except.error ("ORCHESTRA_STRICT_ORIGIN is enabled. source_files must be provided " ++
        "for all content sent to external agents."),
       audits0 ++ [auditEntry "blocked_strict_origin"
         ("source_files not provided, ORCHESTRA_STRICT_ORIGIN=1, policy=" ++ policy)])
    else
      guard_scan_stage policy cl (audits0 ++ [auditEntry "unknown_origin"
        ("No source_files provided, policy=" ++ policy ++ ". " ++
         "File allowlist/blocklist checks skipped. " ++
         "Set ORCHESTRA_CONSENT_POLICY=require_allowlist or provide source_files.")])
  else
    let files := source_files.getD []
    let dirViolations := env.enforceDirs files
    if !dirViolations.isEmpty then
      (Except.error ("Files outside allowed directories: " ++ String.intercalate ", " dirViolations ++
        ". Only files under " ++ env.allowedDirsDesc ++ " are permitted."),
       audits0 ++ [auditEntry "blocked_directory"
         ("Files outside allowed dirs: " ++ pyListRepr dirViolations)])
    else
      let blocked := files.filter (fun f => !(check_file_allowed f))
      if !blocked.isEmpty then
        (Except.error ("Blocked files detected: " ++ String.intercalate ", " blocked ++
          ". These files may contain secrets and cannot be sent to external agents."),
         audits0 ++ [auditEntry "blocked_files" ("Blocked by pattern: " ++ pyListRepr blocked)])
      else guard_scan_stage policy cl audits0

/-! ## budget.py: cross-process token/concurrency ledger

The ledger state is the JSON object behind `_load_state_locked`
(defaults applied). File I/O, locking and `json` failures are modelled
by an `Except Unit LedgerState` load outcome and a `saveOk` flag: the
`Except.error` / `saveOk = false` cases are the paths where the Python
`except Exception` handlers run. -/

/-- A call record appended by `record_call`. -/
structure CallRec where
  agent : String
  tokens : Int
  duration_ms : Int
deriving DecidableEq

/-- The ledger state (`budget_session.json` with defaults applied). -/
structure LedgerState where
  total_tokens : Int
  calls : List CallRec
  active_calls : Int
  budget_limit : Int
  max_concurrent : Int
deriving DecidableEq

/-- `DEFAULT_TOKEN_BUDGET` -/
def DEFAULT_TOKEN_BUDGET : Int := 500000

/-- `DEFAULT_MAX_CONCURRENT` -/
def DEFAULT_MAX_CONCURRENT : Int := 1

/-- The dict returned by `check_budget`; `fallback` is true exactly when
the Python dict carries the `"fallback": True` key. -/
structure BudgetResult where
  allowed : Bool
  remaining : Int
  used : Int
  limit : Int
  active_calls : Int
  max_concurrent : Int
  fallback : Bool
deriving DecidableEq

/-- `check_budget` on a successfully loaded state. -/
def check_budget (s : LedgerState) (estimated_tokens : Int) : BudgetResult :=
  let remaining := s.budget_limit - s.total_tokens
  { allowed := decide (estimated_tokens ≤ remaining) && decide (s.active_calls < s.max_concurrent),
    remaining := remaining,
    used := s.total_tokens,
    limit := s.budget_limit,
    active_calls := s.active_calls,
    max_concurrent := s.max_concurrent,
    fallback := false }

/-- `check_budget` including the exception path: any load failure yields
the permissive fallback dict. -/
def check_budget_outcome (load : Except Unit LedgerState) (estimated_tokens : Int) : BudgetResult :=
  match load with
  | .ok s => check_budget s estimated_tokens
  | .error _ =>
    { allowed := true, remaining := DEFAULT_TOKEN_BUDGET, used := 0,
      limit := DEFAULT_TOKEN_BUDGET, active_calls := 0,
      max_concurrent := DEFAULT_MAX_CONCURRENT, fallback := true }

/-- `acquire_slot` on a successfully loaded state: test-and-increment
against `max_concurrent`. -/
def acquire_slot (s : LedgerState) : Bool × LedgerState :=
  if s.max_concurrent ≤ s.active_calls then (false, s)
  else (true, { s with active_calls := s.active_calls + 1 })

/-- `acquire_slot` including the exception paths: load failure or save
failure both land in `except Exception: return False`. -/
def acquire_slot_outcome (load : Except Unit LedgerState) (saveOk : Bool) : Bool :=
  match load with
  | .error _ => false
  | .ok s =>
    if s.max_concurrent ≤ s.active_calls then false
    else if saveOk then true else false

/-- `release_slot`: decrement `active_calls`, floored at 0. -/
def release_slot (s : LedgerState) : LedgerState :=
  { s with active_calls := max 0 (s.active_calls - 1) }

/-- One ledger operation of the acquire/release interleaving model. -/
inductive LedgerOp where
  | acquire
  | release
deriving DecidableEq

/-- State transition of one operation (the full
load-test-mutate-save critical section runs under the file lock, so an
interleaving is a sequence of such atomic steps). -/
def ledger_step (s : LedgerState) : LedgerOp → LedgerState
  | .acquire => (acquire_slot s).2
  | .release => release_slot s

/-- Run a sequence of operations. -/
def ledger_run (s : LedgerState) (ops : List LedgerOp) : LedgerState :=
  ops.foldl ledger_step s

/-! ## resilience.py: failure classification, retry, fallback -/

/-- Whether the first list is a prefix of the second. -/
def listPfx : List Char → List Char → Bool
  | [], _ => true
  | _ :: _, [] => false
  | a :: as, b :: bs => a = b && listPfx as bs

/-- Whether the first list occurs as a contiguous sublist of the
second. -/
def listSub (needle : List Char) : List Char → Bool
  | [] => listPfx needle []
  | b :: bs => listPfx needle (b :: bs) || listSub needle bs

/-- Python `needle in haystack` on strings. -/
def strContains (hay needle : String) : Bool := listSub needle.toList hay.toList

/-- The `FailureType` constants. -/
def TRANSIENT : String := "transient"

/-- `FailureType.PERMANENT` -/
def PERMANENT : String := "permanent"

/-- `FailureType.RATE_LIMIT` -/
def RATE_LIMIT : String := "rate_limit"

/-- `FailureType.TIMEOUT` -/
def TIMEOUT : String := "timeout"

/-- `classify_failure(error, returncode)`. A Python `error=None` is the
empty string here (`error.lower() if error else ""`); the truthiness
test `returncode and returncode > 128` is `returncode > 128` for every
non-`None` value. -/
def classify_failure (error : String) (returncode : Option Int) : String :=
  let el := String.mk (error.toList.map Char.toLower)
  if strContains el "not_installed" || strContains el "not found" then PERMANENT
  else if strContains el "auth" || strContains el "unauthorized" || strContains el "forbidden" then PERMANENT
  else if strContains el "timeout" then TIMEOUT
  else if strContains el "rate" || strContains el "429" || strContains el "quota" then RATE_LIMIT
  else if (match returncode with | some rc => decide (128 < rc) | none => false) then PERMANENT
  else TRANSIENT

/-- The dict returned by an attempt function: `success`, optional
`error` and `returncode` (absent keys are `none`). -/
structure AttemptRes where
  success : Bool
  error : Option String
  returncode : Option Int
deriving DecidableEq

/-- The dict returned by `retry_with_backoff`: the final attempt result
with the added `attempts` and (on failure paths) `failure_type` keys,
plus the trace of `time.sleep` delays performed between attempts. The
number of invocations of `fn` equals `attempts`. -/
structure RetryOut where
  res : AttemptRes
  attempts : Nat
  failure_type : Option String
  sleeps : List ℚ
deriving DecidableEq

/-- Python `min` on rationals (an executable synonym of `min`). -/
def pymin (a b : ℚ) : ℚ := if a ≤ b then a else b

/-- The retry loop body. `fn` receives the attempt number (for modelling
stateful attempt functions) and the current timeout factor. The fuel is
`max_retries + 1 - attempts`, which never runs out (the loop always
returns once `attempts > max_retries`); the fuel-0 branch mirrors the
unreachable `return result` after the `while`. -/
def retryGo (fn : Nat → ℚ → AttemptRes) (max_retries : Nat)
    (base_delay max_delay timeout_multiplier : ℚ) :
    Nat → Nat → ℚ → List ℚ → RetryOut
  | 0, attempts, _, sleeps => ⟨⟨false, some "unknown", none⟩, attempts, none, sleeps⟩
  | f + 1, attempts, tf, sleeps =>
    let a2 := attempts + 1
    let result := fn a2 tf
    if result.success then ⟨result, a2, none, sleeps⟩
    else
      let error := result.error.getD "unknown"
      let failure_type := classify_failure error result.returncode
      if failure_type = PERMANENT then ⟨result, a2, some failure_type, sleeps⟩
      else if max_retries < a2 then ⟨result, a2, some failure_type, sleeps⟩
      else
        let delay := pymin (base_delay * 2 ^ (a2 - 1)) max_delay
        let delay := if failure_type = RATE_LIMIT then pymin (delay * 3) max_delay else delay
        let tf2 := if failure_type = TIMEOUT then tf * timeout_multiplier else tf
        retryGo fn max_retries base_delay max_delay timeout_multiplier f a2 tf2 (sleeps ++ [delay])

/-- `retry_with_backoff(fn, max_retries, base_delay, max_delay,
timeout_multiplier)` with the initial timeout scale 1.0. -/
def retry_with_backoff (fn : Nat → ℚ → AttemptRes) (max_retries : Nat)
    (base_delay max_delay timeout_multiplier : ℚ) : RetryOut :=
  retryGo fn max_retries base_delay max_delay timeout_multiplier (max_retries + 1) 0 1 []

/-- The `FallbackEnvelope` dict built by `fallback_to_orchestrator`. -/
structure FallbackEnvelope where
  success : Bool
  fallback : Bool
  agent : String
  failure_type : String
  error : String
  recommendation : String
  original_task : String
deriving DecidableEq

/-- `fallback_to_orchestrator(agent_name, original_task, error_info)`.
`redactOk` models whether the `redact_secrets` import-and-call inside
the `try` succeeds; on failure the degraded truncated excerpt is
used. -/
def fallback_to_orchestrator (agent_name original_task : String)
    (ft err : Option String) (redactOk : Bool) : FallbackEnvelope :=
  let safe_task :=
    if redactOk then String.mk (redact_secrets (original_task.toList.take 200))
    else if 50 < original_task.length then String.mk (original_task.toList.take 50) ++ "..."
    else original_task
  { success := false,
    fallback := true,
    agent := agent_name,
    failure_type := ft.getD "unknown",
    error := err.getD "unknown",
    recommendation := agent_name ++ " is unavailable (" ++ err.getD "unknown" ++ "). " ++
      "Orchestrator should handle this task directly or defer it.",
    original_task := safe_task }

/-! ## codex_wrapper.py: composition contract

`call_codex` applies `guard_context` to the prompt before contacting the
delegate; a `ContextGuardError` becomes the typed
`{"success": False, "error": "context_blocked"}` result. The subprocess
stages are an abstract delegate function. -/

/-- `call_codex(mode, context, source_files)` at a given timeout factor:
guard first, delegate only if the guard passes. -/
def call_codex (env : GuardEnv) (delegate : String → ℚ → AttemptRes)
    (mode context : String) (source_files : Option (List String)) (tf : ℚ) : AttemptRes :=
  match (guard_context env ("[mode: " ++ mode ++ "]\n" ++ context) source_files).1 with
  | .error _ => ⟨false, some "context_blocked", none⟩
  | .ok prompt => delegate prompt tf

/-- Result shape of `call_codex_safe`: the distinct dict shapes returned
by the budget gate, the concurrency gate, the fallback path and the
plain retry result. -/
inductive SafeCallRes where
  | budget_exceeded (remaining_tokens : Int)
  | concurrency_limit
  | fallen_back (envl : FallbackEnvelope)
  | plain (r : RetryOut)
deriving DecidableEq

/-- `call_codex_safe`: check_budget → acquire_slot → retry around the
guarded call → fallback on permanent failure. `load`/`saveOk` model the
ledger I/O outcome, `redactOk` the fallback redaction outcome. The
estimated tokens are the hard-coded 10000, `max_retries=1`. -/
def call_codex_safe (env : GuardEnv) (delegate : String → ℚ → AttemptRes)
    (mode context : String) (source_files : Option (List String))
    (load : Except Unit LedgerState) (saveOk redactOk : Bool) : SafeCallRes :=
  let budget := check_budget_outcome load 10000
  if !budget.allowed then .budget_exceeded budget.remaining
  else if !(acquire_slot_outcome load saveOk) then .concurrency_limit
  else
    let result := retry_with_backoff (fun _ tf => call_codex env delegate mode context source_files tf)
      1 2 30 (3 / 2)
    if !result.res.success && result.failure_type = some PERMANENT then
      .fallen_back (fallback_to_orchestrator "codex"
        ("[" ++ mode ++ "] " ++ String.mk (context.toList.take 100))
        result.failure_type result.res.error redactOk)
    else .plain result

/-! ## Theorems -/

/-- Decidable equality for guard results. -/
instance exceptStrDecEq : DecidableEq (Except String String) := fun a b =>
  match a, b with
  | .ok x, .ok y =>
    if h : x = y then isTrue (by rw [h]) else isFalse (by simp [h])
  | .error x, .error y =>
    if h : x = y then isTrue (by rw [h]) else isFalse (by simp [h])
  | .ok _, .error _ => isFalse (by simp)
  | .error _, .ok _ => isFalse (by simp)

/-- C1: for every ledger state and every `estimatedTokens`,
`check_budget` returns `allowed = false` iff
`remaining < estimatedTokens` or `active_calls ≥ max_concurrent`; at the
boundary `remaining = estimatedTokens` (with
`active_calls < max_concurrent`) it returns `allowed = true`; and the
returned record reports `remaining = budget_limit - total_tokens`,
`used`, `limit`, `active_calls` and `max_concurrent` from the stored
state. -/
theorem check_budget_correct (s : LedgerState) (est : Int) :
    ((check_budget s est).allowed = false ↔
      ((check_budget s est).remaining < est ∨ s.max_concurrent ≤ s.active_calls)) ∧
    ((check_budget s est).remaining = est ∧ s.active_calls < s.max_concurrent →
      (check_budget s est).allowed = true) ∧
    (check_budget s est).remaining = s.budget_limit - s.total_tokens ∧
    (check_budget s est).used = s.total_tokens ∧
    (check_budget s est).limit = s.budget_limit ∧
    (check_budget s est).active_calls = s.active_calls ∧
    (check_budget s est).max_concurrent = s.max_concurrent := by
  refine ⟨?_, ?_, rfl, rfl, rfl, rfl, rfl⟩
  · show ((decide (est ≤ s.budget_limit - s.total_tokens) &&
        decide (s.active_calls < s.max_concurrent)) = false) ↔
      (s.budget_limit - s.total_tokens < est ∨ s.max_concurrent ≤ s.active_calls)
    simp only [Bool.and_eq_false_iff, decide_eq_false_iff_not, not_le, not_lt]
  · intro h
    show (decide (est ≤ s.budget_limit - s.total_tokens) &&
        decide (s.active_calls < s.max_concurrent)) = true
    have h1 : (check_budget s est).remaining = s.budget_limit - s.total_tokens := rfl
    rw [h1] at h
    simp only [Bool.and_eq_true, decide_eq_true_eq]
    omega

/-- C1 witness: the boundary case `remaining = estimatedTokens` with a
free slot is allowed. -/
theorem check_budget_correct_witness :
    (check_budget ⟨0, [], 0, 500000, 1⟩ 500000).allowed = true :=
  (check_budget_correct ⟨0, [], 0, 500000, 1⟩ 500000).2.1 (by constructor <;> decide)

/-- C2: every interleaving of `acquire_slot`/`release_slot` starting
from `0 ≤ active_calls ≤ max_concurrent` preserves
`0 ≤ active_calls ≤ max_concurrent`; `acquire_slot` returns `false`
without mutation when full, and `release_slot` floors at 0. -/
theorem ledger_interleaving_invariant (s : LedgerState) (ops : List LedgerOp)
    (h0 : 0 ≤ s.active_calls) (h1 : s.active_calls ≤ s.max_concurrent) :
    (0 ≤ (ledger_run s ops).active_calls ∧
      (ledger_run s ops).active_calls ≤ (ledger_run s ops).max_concurrent) ∧
    (∀ t : LedgerState, t.max_concurrent ≤ t.active_calls → acquire_slot t = (false, t)) ∧
    (∀ t : LedgerState, 0 ≤ (release_slot t).active_calls) := by
  have step_inv : ∀ (t : LedgerState) (op : LedgerOp), 0 ≤ t.active_calls →
      t.active_calls ≤ t.max_concurrent →
      0 ≤ (ledger_step t op).active_calls ∧
        (ledger_step t op).active_calls ≤ (ledger_step t op).max_concurrent := by
    intro t op g0 g1
    cases op with
    | acquire =>
      simp only [ledger_step, acquire_slot]
      split
      · exact ⟨g0, g1⟩
      · next h =>
        exact ⟨show (0 : ℤ) ≤ t.active_calls + 1 by omega,
          show t.active_calls + 1 ≤ t.max_concurrent by omega⟩
    | release =>
      refine ⟨le_max_left _ _, ?_⟩
      show max 0 (t.active_calls - 1) ≤ t.max_concurrent
      exact max_le (by omega) (by omega)
  refine ⟨?_, fun t ht => by simp [acquire_slot, ht], fun t => le_max_left _ _⟩
  induction ops generalizing s with
  | nil => exact ⟨h0, h1⟩
  | cons op ops ih =>
    simp only [ledger_run, List.foldl_cons]
    exact ih (ledger_step s op) (step_inv s op h0 h1).1 (step_inv s op h0 h1).2

/-- C2 witness: a concrete interleaving that hits both the full-acquire
and the empty-release paths. -/
theorem ledger_interleaving_invariant_witness :
    0 ≤ (ledger_run ⟨0, [], 0, 500000, 1⟩
        [.acquire, .acquire, .release, .release, .acquire]).active_calls ∧
      (ledger_run ⟨0, [], 0, 500000, 1⟩
        [.acquire, .acquire, .release, .release, .acquire]).active_calls ≤
      (ledger_run ⟨0, [], 0, 500000, 1⟩
        [.acquire, .acquire, .release, .release, .acquire]).max_concurrent :=
  (ledger_interleaving_invariant ⟨0, [], 0, 500000, 1⟩
    [.acquire, .acquire, .release, .release, .acquire] (by decide) (by decide)).1

/-- C3: on any load failure `check_budget` returns the permissive
fallback (`allowed = true`, `fallback` flag set) instead of raising,
while `acquire_slot` fails closed: a load failure or a save failure
both return `false`. -/
theorem budget_fail_open_acquire_fail_closed :
    (∀ est : Int, (check_budget_outcome (Except.error ()) est).allowed = true ∧
      (check_budget_outcome (Except.error ()) est).fallback = true) ∧
    (∀ saveOk : Bool, acquire_slot_outcome (Except.error ()) saveOk = false) ∧
    (∀ s : LedgerState, acquire_slot_outcome (Except.ok s) false = false) := by
  refine ⟨fun est => ⟨rfl, rfl⟩, fun saveOk => rfl, fun s => ?_⟩
  simp only [acquire_slot_outcome]
  split <;> rfl

/-- C5: the `original_task` embedded in a `FallbackEnvelope` is always
the 200-character prefix of the task passed through `redact_secrets`;
only when redaction itself fails is it the degraded truncated excerpt
(at most 53 characters). -/
theorem fallback_envelope_redacted (agent task : String) (ft err : Option String)
    (redactOk : Bool) :
    (redactOk = true →
      (fallback_to_orchestrator agent task ft err redactOk).original_task =
        String.mk (redact_secrets (task.toList.take 200))) ∧
    (redactOk = false →
      (fallback_to_orchestrator agent task ft err redactOk).original_task =
        (if 50 < task.length then String.mk (task.toList.take 50) ++ "..." else task) ∧
      (fallback_to_orchestrator agent task ft err redactOk).original_task.length ≤ 53) := by
  constructor
  · intro h; subst h; rfl
  · intro h
    subst h
    refine ⟨rfl, ?_⟩
    have hlen : (fallback_to_orchestrator agent task ft err false).original_task =
        (if 50 < task.length then String.mk (task.toList.take 50) ++ "..." else task) := rfl
    rw [hlen]
    split
    · next h2 =>
      have h3 : (String.mk (task.toList.take 50) ++ "...").length =
          (task.toList.take 50).length + 3 := by
        show ((task.toList.take 50) ++ ("...").data).length = _
        rw [List.length_append]
        rfl
      have h4 := List.length_take_le 50 task.toList
      omega
    · next h2 => omega

/-- C5 witness: with working redaction the embedded task is the redacted
prefix. -/
theorem fallback_envelope_redacted_witness :
    (fallback_to_orchestrator "codex" "token = mysecretvalue123" none none true).original_task =
      "[REDACTED]" := by
  have h := (fallback_envelope_redacted "codex" "token = mysecretvalue123" none none true).1 rfl
  rw [h]; decide

/-- C8: `classify_failure "rate limit exceeded"` is `rate_limit`, and
`retry_with_backoff` with `max_retries = 2` against an
always-rate-limited function performs exactly 3 attempts, sleeps the
exponential delay `min(base·2^(attempt-1), max_delay)` tripled and
re-capped at `max_delay` between attempts, and returns the final
failure annotated `attempts = 3`. -/
theorem rate_limit_retry_backoff :
    classify_failure "rate limit exceeded" none = RATE_LIMIT ∧
    retry_with_backoff (fun _ _ => ⟨false, some "rate limit exceeded", none⟩) 2 2 30 (3 / 2) =
      ⟨⟨false, some "rate limit exceeded", none⟩, 3, some RATE_LIMIT,
        [pymin (pymin (2 * 2 ^ (1 - 1)) 30 * 3) 30, pymin (pymin (2 * 2 ^ (2 - 1)) 30 * 3) 30]⟩ ∧
    [pymin (pymin ((2 : ℚ) * 2 ^ (1 - 1)) 30 * 3) 30, pymin (pymin ((2 : ℚ) * 2 ^ (2 - 1)) 30 * 3) 30] =
      [(6 : ℚ), 12] := by
  refine ⟨by decide, by rfl, by norm_num [pymin]⟩

/-- C9 (amended): redaction is the identity on content whose secret scan
yields no findings; full idempotence fails in general (see the
counterexample). -/
theorem redact_noop_on_clean (c : List Char) (h : scan_secrets c = []) :
    redact_secrets c = c := by
  have main : ∀ (re : Rx) (pid : String) (f line : Nat) (prev : Option Char) (rest : List Char),
      scanGo re pid f line prev rest = [] → subGo re f prev rest = rest := by
    intro re pid f
    induction f with
    | zero => intro line prev rest _; rfl
    | succ f ih =>
      intro line prev rest hsc
      cases rest with
      | nil =>
        cases hatt : attempt re prev [] with
        | some r =>
          obtain ⟨racc, p2, rs2⟩ := r
          simp only [scanGo, hatt] at hsc
          split at hsc <;> simp at hsc
        | none => simp only [subGo, hatt]
      | cons ch rs =>
        cases hatt : attempt re prev (ch :: rs) with
        | some r =>
          obtain ⟨racc, p2, rs2⟩ := r
          simp only [scanGo, hatt] at hsc
          split at hsc <;> simp at hsc
        | none =>
          simp only [scanGo, hatt] at hsc
          simp only [subGo, hatt]
          exact congrArg (ch :: ·) (ih (nlAdv line ch) (some ch) rs hsc)
  have step : ∀ (ps : List SecretPat) (c : List Char),
      scanList ps c = [] → redactList ps c = c := by
    intro ps
    induction ps with
    | nil => intro c _; rfl
    | cons p ps ih =>
      intro c hsc
      simp only [scanList, List.append_eq_nil] at hsc
      simp only [redactList,
        main p.re (String.mk (p.src.toList.take 40)) (c.length + 1) 1 none c hsc.1]
      exact ih c hsc.2
  exact step SECRET_PATTERNS c h

/-- C9 witness: clean content is returned unchanged. -/
theorem redact_noop_on_clean_witness :
    redact_secrets ("hello world").toList = ("hello world").toList :=
  redact_noop_on_clean ("hello world").toList (by decide)

/-- Helper: when the scan stage returns content, it is the input
unchanged (no findings) or its redaction (findings present). -/
lemma guard_scan_stage_fst_ok (policy : String) (cl : List Char)
    (audits : List (String × String)) (r : String)
    (h : (guard_scan_stage policy cl audits).1 = Except.ok r) :
    (scan_secrets cl = [] ∧ r = String.mk cl) ∨
    (scan_secrets cl ≠ [] ∧ r = String.mk (redact_secrets cl)) := by
  simp only [guard_scan_stage] at h
  split at h
  · next hemp =>
    left
    refine ⟨List.isEmpty_iff.mp hemp, ?_⟩
    simpa using h.symm
  · next hemp =>
    split at h
    · simp at h
    · right
      refine ⟨fun hc => hemp (by simp [hc]), ?_⟩
      simpa using h.symm

/-- Helper: whenever `guard_context` returns content, it is the
truncated input unchanged (no findings) or its redaction (findings
present); everything after step 1 operates on the truncated content
only. -/
lemma guard_context_fst_ok (env : GuardEnv) (content : String)
    (src : Option (List String)) (r : String)
    (h : (guard_context env content src).1 = Except.ok r) :
    (scan_secrets (truncate_content content.toList) = [] ∧
      r = String.mk (truncate_content content.toList)) ∨
    (scan_secrets (truncate_content content.toList) ≠ [] ∧
      r = String.mk (redact_secrets (truncate_content content.toList))) := by
  simp only [guard_context] at h
  split at h
  · split at h
    · simp at h
    · split at h
      · simp at h
      · exact guard_scan_stage_fst_ok _ _ _ _ h
  · split at h
    · simp at h
    · split at h
      · simp at h
      · exact guard_scan_stage_fst_ok _ _ _ _ h

/-- C7: for content whose secret scan (of the truncated content) yields
zero findings, whenever `guard_context` returns under any consent
policy, it returns the input unchanged modulo size-cap truncation. -/
theorem guard_zero_findings_passthrough (env : GuardEnv) (content : String)
    (src : Option (List String)) (r : String)
    (h0 : scan_secrets (truncate_content content.toList) = [])
    (h1 : (guard_context env content src).1 = Except.ok r) :
    r = String.mk (truncate_content content.toList) := by
  rcases guard_context_fst_ok env content src r h1 with ⟨_, hr⟩ | ⟨hne, _⟩
  · exact hr
  · exact absurd h0 hne

/-- C7 witness: clean content passes unchanged under the `block`
policy with valid provenance. -/
theorem guard_zero_findings_passthrough_witness :
    ("hello world" : String) = String.mk (truncate_content ("hello world").toList) :=
  guard_zero_findings_passthrough ⟨"block", "1", fun _ => [], "[]"⟩ "hello world"
    (some ["notes.md"]) "hello world" (by decide) (by rfl)

/-- C6: under the `block` policy, content holding the secret assignment
`token = "mysupersecrettoken123"` with valid provenance is rejected;
the scan retains one finding holding only the pattern id, the line
number and the 8-character-prefix sample `token = ***`; and the secret
never occurs in the returned error, the audit-log records or the
finding sample. -/
theorem guard_block_rejects_without_leak :
    (guard_context ⟨"block", "1", fun _ => [], "[]"⟩ "token = \"mysupersecrettoken123\""
        (some ["notes.md"])).1 =
      Except.error
        "1 potential secrets detected. Policy is \x27block\x27: transmission blocked. Review content manually." ∧
    (guard_context ⟨"block", "1", fun _ => [], "[]"⟩ "token = \"mysupersecrettoken123\""
        (some ["notes.md"])).2 =
      [("secrets_found", "1 secrets detected, policy=block")] ∧
    scan_secrets ("token = \"mysupersecrettoken123\"").toList =
      [⟨"(?:secret|token|password|passwd|pwd)\\s*[", "token = ***", 1⟩] ∧
    listSub ("mysupersecrettoken123").toList
      ("1 potential secrets detected. Policy is \x27block\x27: transmission blocked. Review content manually.").toList = false ∧
    listSub ("mysupersecrettoken123").toList ("secrets_found").toList = false ∧
    listSub ("mysupersecrettoken123").toList ("1 secrets detected, policy=block").toList = false ∧
    listSub ("mysupersecrettoken123").toList ("token = ***").toList = false := by
  decide

/-- C4 counterexample: a SafetyGate rejection does not terminate the
retry loop — with `max_retries = 1` the attempt function runs twice
(`attempts = 2`), because `context_blocked` is classified `transient`.
The delegate here always succeeds, so both attempts fail in the guard
alone. -/
theorem context_blocked_is_retried :
    call_codex_safe ⟨"redact", "1", fun _ => [], "[]"⟩ (fun _ _ => ⟨true, none, none⟩)
        "review" "do things" none (Except.ok ⟨0, [], 0, 500000, 1⟩) true true =
      SafeCallRes.plain ⟨⟨false, some "context_blocked", none⟩, 2, some TRANSIENT,
        [pymin (2 * 2 ^ (1 - 1)) 30]⟩ := by
  rfl

/-- C4 (amended): when `guard_context` rejects the prompt, `call_codex`
returns the typed `context_blocked` failure and the retry loop
propagates it to the caller as a failure (never a pass) — but the
rejection is classified `transient`, so with `max_retries = 1` the
attempt function is invoked a second time rather than stopping at the
first rejection. -/
theorem context_blocked_typed_but_retried (env : GuardEnv) (delegate : String → ℚ → AttemptRes)
    (mode context : String) (src : Option (List String)) (m : String)
    (hguard : (guard_context env ("[mode: " ++ mode ++ "]\n" ++ context) src).1 =
      Except.error m) :
    (∀ tf : ℚ, call_codex env delegate mode context src tf =
      ⟨false, some "context_blocked", none⟩) ∧
    classify_failure "context_blocked" none = TRANSIENT ∧
    retry_with_backoff (fun _ tf => call_codex env delegate mode context src tf) 1 2 30 (3 / 2) =
      ⟨⟨false, some "context_blocked", none⟩, 2, some TRANSIENT, [pymin (2 * 2 ^ (1 - 1)) 30]⟩ ∧
    call_codex_safe env delegate mode context src (Except.ok ⟨0, [], 0, 500000, 1⟩) true true =
      SafeCallRes.plain ⟨⟨false, some "context_blocked", none⟩, 2, some TRANSIENT,
        [pymin (2 * 2 ^ (1 - 1)) 30]⟩ := by
  have hc : ∀ tf : ℚ, call_codex env delegate mode context src tf =
      ⟨false, some "context_blocked", none⟩ := by
    intro tf
    simp [call_codex, hguard]
  have hfn : (fun (_ : Nat) (tf : ℚ) => call_codex env delegate mode context src tf) =
      (fun (_ : Nat) (_ : ℚ) => (⟨false, some "context_blocked", none⟩ : AttemptRes)) := by
    funext a tf
    exact hc tf
  refine ⟨hc, by decide, ?_, ?_⟩
  · rw [show (fun (_ : Nat) (tf : ℚ) => call_codex env delegate mode context src tf) =
        (fun (_ : Nat) (_ : ℚ) => (⟨false, some "context_blocked", none⟩ : AttemptRes)) from hfn]
    rfl
  · simp only [call_codex_safe, hfn]
    rfl

/-- C4 witness: the amended behaviour at a concrete strict-origin
rejection. -/
theorem context_blocked_typed_but_retried_witness :
    classify_failure "context_blocked" none = TRANSIENT :=
  (context_blocked_typed_but_retried ⟨"redact", "1", fun _ => [], "[]"⟩
    (fun _ _ => ⟨true, none, none⟩) "review" "do things" none
    ("ORCHESTRA_STRICT_ORIGIN is enabled. source_files must be provided " ++
      "for all content sent to external agents.") (by rfl)).2.1

/-! ### C10: behaviour on oversized content

The concrete oversized input is `token =12345678` followed by 99986
newlines (100001 characters). Truncation keeps the secret assignment
and 99985 newlines and appends the marker; the scan then finds the
assignment, and under the default `redact` policy the guard returns the
redacted truncation — not the truncation itself. The evaluation is done
symbolically (single-step walks over the concrete prefixes, induction
over the newline run), since the 100k-character computation is far too
large to normalise in the kernel. -/

/-- The secret-bearing prefix of the oversized input. -/
def pfxL : List Char := ("token =12345678").toList

/-- The oversized input: 15 characters of prefix plus 99986 newlines. -/
def mkBig : String := String.mk (pfxL ++ List.replicate 99986 '\n')

/-- What step 1 of the guard produces from `mkBig`. -/
def truncL : List Char := pfxL ++ (List.replicate 99985 '\n' ++ TRUNC_MARKER)

/-- The redaction of `truncL`. -/
def redBig : List Char := REDACTED ++ (List.replicate 99985 '\n' ++ TRUNC_MARKER)

/-- Permissive environment: default `redact` policy, strict origin
disabled. -/
def envPerm : GuardEnv := ⟨"redact", "0", fun _ => [], "[]"⟩

/-- No secret pattern can match at a newline: every pattern fails after
inspecting only the head character (for the env-line pattern, also the
previous character, via the `^` anchor). -/
lemma attempt_nl_1 (prev : Option Char) (rest : List Char) :
    attempt pat1.re prev ('\n' :: rest) = none := rfl

lemma attempt_nl_2 (prev : Option Char) (rest : List Char) :
    attempt pat2.re prev ('\n' :: rest) = none := rfl

lemma attempt_nl_3 (prev : Option Char) (rest : List Char) :
    attempt pat3.re prev ('\n' :: rest) = none := rfl

lemma attempt_nl_4 (prev : Option Char) (rest : List Char) :
    attempt pat4.re prev ('\n' :: rest) = none := rfl

lemma attempt_nl_5 (prev : Option Char) (rest : List Char) :
    attempt pat5.re prev ('\n' :: rest) = none := rfl

lemma attempt_nl_6 (prev : Option Char) (rest : List Char) :
    attempt pat6.re prev ('\n' :: rest) = none := rfl

lemma attempt_nl_7 (prev : Option Char) (rest : List Char) :
    attempt pat7.re prev ('\n' :: rest) = none := rfl

lemma attempt_nl_8 (prev : Option Char) (rest : List Char) :
    attempt pat8.re prev ('\n' :: rest) = none := rfl

lemma attempt_nl_9 (prev : Option Char) (rest : List Char) :
    attempt pat9.re prev ('\n' :: rest) = none := rfl

lemma attempt_nl_10 (prev : Option Char) (rest : List Char) :
    attempt pat10.re prev ('\n' :: rest) = none := by
  cases prev with
  | none => rfl
  | some c =>
    by_cases hc : c = '\n'
    · subst hc; rfl
    · show mre pat10.re [] (some c) ('\n' :: rest) _ = none
      show mre .bol [] (some c) ('\n' :: rest) _ = none
      show (if c = '\n' then _ else none) = none
      rw [if_neg hc]

/-- One substitution step over a non-matching position. -/
lemma subGo_step_nl (re : Rx) (hnl : ∀ prev rest, attempt re prev ('\n' :: rest) = none)
    (f : Nat) (prev : Option Char) (rest : List Char) :
    subGo re (f + 1) prev ('\n' :: rest) = '\n' :: subGo re f (some '\n') rest := by
  simp only [subGo, hnl]

/-- Substitution walks over a run of newlines untouched. -/
lemma subGo_replicate (re : Rx) (hnl : ∀ prev rest, attempt re prev ('\n' :: rest) = none) :
    ∀ (k f : Nat) (prev : Option Char) (tail : List Char),
      subGo re (k + f) prev (List.replicate k '\n' ++ tail) =
        List.replicate k '\n' ++ subGo re f (if k = 0 then prev else some '\n') tail := by
  intro k
  induction k with
  | zero => intro f prev tail; simp
  | succ k ih =>
    intro f prev tail
    have h1 : k + 1 + f = (k + f) + 1 := by omega
    rw [h1, List.replicate_succ, List.cons_append,
      subGo_step_nl re hnl (k + f) prev (List.replicate k '\n' ++ tail),
      ih f (some '\n') tail, if_neg (Nat.succ_ne_zero k), List.cons_append]
    congr 2
    split <;> rfl

/-- A whole no-op layer of `redact_secrets` on `truncL`, assembled from
a prefix walk, the newline run, and the marker. -/
lemma layer_noop (re : Rx) (hnl : ∀ prev rest, attempt re prev ('\n' :: rest) = none)
    (hpfx : ∀ R : List Char,
      subGo re 100043 none (pfxL ++ R) = pfxL ++ subGo re 100028 (some '8') R)
    (hmark : subGo re 43 (some '\n') TRUNC_MARKER = TRUNC_MARKER) :
    subGo re (truncL.length + 1) none truncL = truncL := by
  have hlen : truncL.length + 1 = 100043 := by
    rw [show truncL.length = 100042 from ?_]
    rw [truncL, List.length_append, List.length_append, List.length_replicate,
      show pfxL.length = 15 from rfl, show TRUNC_MARKER.length = 42 from rfl]
  rw [hlen, show truncL = pfxL ++ (List.replicate 99985 '\n' ++ TRUNC_MARKER) from rfl,
    hpfx (List.replicate 99985 '\n' ++ TRUNC_MARKER),
    show (100028 : Nat) = 99985 + 43 from by norm_num,
    subGo_replicate re hnl 99985 43 (some '8') TRUNC_MARKER,
    if_neg (by norm_num : ¬ (99985 : Nat) = 0), hmark]

/-- A whole no-op layer on the already-redacted `redBig`. -/
lemma layer_noop_red (re : Rx) (hnl : ∀ prev rest, attempt re prev ('\n' :: rest) = none)
    (hpfx : ∀ R : List Char,
      subGo re 100038 none (REDACTED ++ R) = REDACTED ++ subGo re 100028 (some ']') R)
    (hmark : subGo re 43 (some '\n') TRUNC_MARKER = TRUNC_MARKER) :
    subGo re (redBig.length + 1) none redBig = redBig := by
  have hlen : redBig.length + 1 = 100038 := by
    rw [show redBig.length = 100037 from ?_]
    rw [redBig, List.length_append, List.length_append, List.length_replicate,
      show REDACTED.length = 10 from rfl, show TRUNC_MARKER.length = 42 from rfl]
  rw [hlen, show redBig = REDACTED ++ (List.replicate 99985 '\n' ++ TRUNC_MARKER) from rfl,
    hpfx (List.replicate 99985 '\n' ++ TRUNC_MARKER),
    show (100028 : Nat) = 99985 + 43 from by norm_num,
    subGo_replicate re hnl 99985 43 (some ']') TRUNC_MARKER,
    if_neg (by norm_num : ¬ (99985 : Nat) = 0), hmark]

/-- Length of the truncated oversized input. -/
lemma truncL_len : truncL.length = 100042 := by
  rw [truncL, List.length_append, List.length_append, List.length_replicate,
    show pfxL.length = 15 from rfl, show TRUNC_MARKER.length = 42 from rfl]

/-- Length of the oversized input. -/
lemma mkBig_len : mkBig.toList.length = 100001 := by
  rw [show mkBig.toList = pfxL ++ List.replicate 99986 '\n' from rfl,
    List.length_append, List.length_replicate, show pfxL.length = 15 from rfl]

/-- The generic-secrets layer replaces the leading assignment and leaves
the rest of `truncL` untouched. -/
lemma layer_pat7 : subGo pat7.re (truncL.length + 1) none truncL = redBig := by
  have hlen : truncL.length + 1 = 100043 := by rw [truncL_len]
  rw [hlen,
    show truncL = pfxL ++ ('\n' :: (List.replicate 99984 '\n' ++ TRUNC_MARKER)) from rfl,
    show subGo pat7.re 100043 none (pfxL ++ ('\n' :: (List.replicate 99984 '\n' ++ TRUNC_MARKER)))
        = REDACTED ++ subGo pat7.re 100042 (some '8')
            ('\n' :: (List.replicate 99984 '\n' ++ TRUNC_MARKER)) from rfl,
    show ('\n' :: (List.replicate 99984 '\n' ++ TRUNC_MARKER))
        = List.replicate 99985 '\n' ++ TRUNC_MARKER from rfl,
    show (100042 : Nat) = 99985 + 57 from by norm_num,
    subGo_replicate pat7.re attempt_nl_7 99985 57 (some '8') TRUNC_MARKER,
    if_neg (by norm_num : ¬ (99985 : Nat) = 0),
    show subGo pat7.re 57 (some '\n') TRUNC_MARKER = TRUNC_MARKER from rfl]
  exact rfl

/-- Unfolding one pattern layer of the substitution loop. -/
lemma redactList_cons (p : SecretPat) (ps : List SecretPat) (c : List Char) :
    redactList (p :: ps) c = redactList ps (subGo p.re (c.length + 1) none c) := rfl

/-- `redact_secrets` on `truncL`: only the generic-secrets pattern
fires. Assembled one pattern at a time so no oversized term is ever
normalised. -/
lemma redact_truncL : redact_secrets truncL = redBig := by
  show redactList [pat1, pat2, pat3, pat4, pat5, pat6, pat7, pat8, pat9, pat10] truncL = redBig
  rw [redactList_cons, layer_noop pat1.re attempt_nl_1 (fun R => rfl) rfl,
    redactList_cons, layer_noop pat2.re attempt_nl_2 (fun R => rfl) rfl,
    redactList_cons, layer_noop pat3.re attempt_nl_3 (fun R => rfl) rfl,
    redactList_cons, layer_noop pat4.re attempt_nl_4 (fun R => rfl) rfl,
    redactList_cons, layer_noop pat5.re attempt_nl_5 (fun R => rfl) rfl,
    redactList_cons, layer_noop pat6.re attempt_nl_6 (fun R => rfl) rfl,
    redactList_cons, layer_pat7,
    redactList_cons, layer_noop_red pat8.re attempt_nl_8 (fun R => rfl) rfl,
    redactList_cons, layer_noop_red pat9.re attempt_nl_9 (fun R => rfl) rfl,
    redactList_cons, layer_noop_red pat10.re attempt_nl_10 (fun R => rfl) rfl]
  exact rfl
/-- Unfolding one pattern layer of the scan loop. -/
lemma scanList_cons (p : SecretPat) (ps : List SecretPat) (content : List Char) :
    scanList (p :: ps) content =
      scanGo p.re (String.mk (p.src.toList.take 40)) (content.length + 1) 1 none content ++
        scanList ps content := rfl

/-- One scan step of the generic-secrets pattern over the leading
assignment, generic in fuel and tail. -/
lemma scan7step (f line : Nat) (tail : List Char) :
    scanGo pat7.re (String.mk (pat7.src.toList.take 40)) (f + 1) line none
        ('t' :: (("oken =12345678").toList ++ ('\n' :: tail))) =
      mkFinding (String.mk (pat7.src.toList.take 40)) pfxL.reverse line ::
        scanGo pat7.re (String.mk (pat7.src.toList.take 40)) f
          (line + countNl pfxL.reverse.reverse) (some '8') ('\n' :: tail) := rfl

/-- The scan of `truncL` is non-empty: the generic-secrets pattern
matches at the start. -/
lemma scan_truncL_ne : scan_secrets truncL ≠ [] := by
  intro h
  replace h : scanList [pat1, pat2, pat3, pat4, pat5, pat6, pat7, pat8, pat9, pat10] truncL
      = [] := h
  rw [scanList_cons] at h
  replace h := (List.append_eq_nil.mp h).2
  rw [scanList_cons] at h
  replace h := (List.append_eq_nil.mp h).2
  rw [scanList_cons] at h
  replace h := (List.append_eq_nil.mp h).2
  rw [scanList_cons] at h
  replace h := (List.append_eq_nil.mp h).2
  rw [scanList_cons] at h
  replace h := (List.append_eq_nil.mp h).2
  rw [scanList_cons] at h
  replace h := (List.append_eq_nil.mp h).2
  rw [scanList_cons] at h
  replace h := (List.append_eq_nil.mp h).1
  rw [truncL_len,
    show truncL = 't' :: (("oken =12345678").toList ++
      ('\n' :: (List.replicate 99984 '\n' ++ TRUNC_MARKER))) from rfl,
    scan7step 100042 1 (List.replicate 99984 '\n' ++ TRUNC_MARKER)] at h
  exact List.cons_ne_nil _ _ h

/-- Step 1 of the guard on the oversized input. -/
lemma trunc_mkBig : truncate_content mkBig.toList = truncL := by
  conv_lhs =>
    rw [truncate_content,
      if_pos (show MAX_CONTEXT_SIZE < mkBig.toList.length by
        rw [mkBig_len]; norm_num [MAX_CONTEXT_SIZE]),
      show mkBig.toList = pfxL ++ List.replicate 99986 '\n' from rfl,
      show (MAX_CONTEXT_SIZE : Nat) = pfxL.length + 99985 from by
        rw [show pfxL.length = 15 from rfl]; norm_num [MAX_CONTEXT_SIZE],
      List.take_append, List.take_replicate,
      show min 99985 99986 = 99985 from by norm_num,
      List.append_assoc]
  rfl

/-- The scan stage under a non-`block` policy with findings returns the
redaction. -/
lemma guard_scan_stage_redacts (policy : String) (cl : List Char)
    (audits : List (String × String)) (hne : scan_secrets cl ≠ [])
    (hpol : ¬ policy = "block") :
    (guard_scan_stage policy cl audits).1 = Except.ok (String.mk (redact_secrets cl)) := by
  have hemp : (scan_secrets cl).isEmpty = false :=
    Bool.eq_false_iff.mpr (fun hemp => hne (List.isEmpty_iff.mp hemp))
  simp only [guard_scan_stage, hemp, Bool.false_eq_true, if_false, if_neg hpol]

/-- The guard in the permissive environment with unknown origin hands
the truncated content to the scan stage. -/
lemma guard_envPerm (content : String) :
    guard_context envPerm content none =
      guard_scan_stage "redact" (truncate_content content.toList)
        ([] ++ [auditEntry "unknown_origin"
          ("No source_files provided, policy=" ++ "redact" ++ ". " ++
           "File allowlist/blocklist checks skipped. " ++
           "Set ORCHESTRA_CONSENT_POLICY=require_allowlist or provide source_files.")]) := rfl

/-- The guard on the oversized input: truncate, allow unknown origin
(strict origin off, default `redact` policy), scan finds the
assignment, and the redacted truncation is returned. -/
lemma guard_mkBig : (guard_context envPerm mkBig none).1 = Except.ok (String.mk redBig) := by
  rw [guard_envPerm mkBig, trunc_mkBig,
    guard_scan_stage_redacts "redact" truncL _ scan_truncL_ne (by decide),
    redact_truncL]

/-- C10 counterexample: on the 100001-character input `mkBig` the guard
does not reject, yet the returned string is the redacted truncation
(starting with the placeholder), not `content[:100000] + marker`
itself. -/
theorem guard_oversized_returns_redacted_not_trunc :
    MAX_CONTEXT_SIZE < mkBig.toList.length ∧
    (guard_context envPerm mkBig none).1 = Except.ok (String.mk redBig) ∧
    truncate_content mkBig.toList = mkBig.toList.take MAX_CONTEXT_SIZE ++ TRUNC_MARKER ∧
    String.mk redBig ≠ String.mk (truncate_content mkBig.toList) := by
  refine ⟨by rw [mkBig_len]; norm_num [MAX_CONTEXT_SIZE], guard_mkBig, ?_, ?_⟩
  · rw [truncate_content, if_pos (show MAX_CONTEXT_SIZE < mkBig.toList.length by
      rw [mkBig_len]; norm_num [MAX_CONTEXT_SIZE])]
  · intro hEq
    injection hEq with h2
    rw [trunc_mkBig] at h2
    have h3 := congrArg List.head? h2
    rw [show redBig.head? = some '[' from rfl, show truncL.head? = some 't' from rfl] at h3
    exact absurd (Option.some.inj h3) (by decide)

/-- C10 (amended): for oversized content the guard truncates to exactly
the first 100,000 characters plus the fixed marker, and everything
downstream — the secret scan and the returned value — operates on that
truncation only: the return value is the truncation itself when the
scan is clean, and its redaction otherwise (so the returned string can
differ from the truncation, as the counterexample shows). -/
theorem guard_truncation_bound (env : GuardEnv) (content : String)
    (src : Option (List String)) (r : String)
    (hlen : MAX_CONTEXT_SIZE < content.toList.length)
    (h : (guard_context env content src).1 = Except.ok r) :
    truncate_content content.toList = content.toList.take MAX_CONTEXT_SIZE ++ TRUNC_MARKER ∧
    ((scan_secrets (truncate_content content.toList) = [] ∧
      r = String.mk (truncate_content content.toList)) ∨
     (scan_secrets (truncate_content content.toList) ≠ [] ∧
      r = String.mk (redact_secrets (truncate_content content.toList)))) := by
  refine ⟨?_, guard_context_fst_ok env content src r h⟩
  rw [truncate_content, if_pos hlen]

/-- C10 witness: the amended theorem applied to the oversized input. -/
theorem guard_truncation_bound_witness :
    truncate_content mkBig.toList = mkBig.toList.take MAX_CONTEXT_SIZE ++ TRUNC_MARKER :=
  (guard_truncation_bound envPerm mkBig none (String.mk redBig)
    (by rw [mkBig_len]; norm_num [MAX_CONTEXT_SIZE])
    guard_mkBig).1


/-- C9 counterexample: `redact_secrets` is not idempotent — redacting
`secret = secret = aaaaaaaa` once yields `secret = [REDACTED]`, and the
placeholder completes a fresh match on the second pass. -/
theorem redact_not_idempotent :
    redact_secrets (redact_secrets ("secret = secret = aaaaaaaa").toList) ≠
      redact_secrets (("secret = secret = aaaaaaaa").toList) := by
  decide


end Orchestra
